import Mathlib

/-!
# Verification of the `defeed` index subsystem

Shallow embedding of `src/index/src/defeed_index/repository.py` and
`src/index/src/defeed_index/registry.py` (python), together with proofs of
the spec's claims about them.

Modelling conventions:
* A database row (`Row`) carries the thirteen columns selected by
  `ActivityRepository.list`.  Nullable columns are `Option`s.
* Timestamps (`created_at`) are modelled as `Nat`.
* Embedding vectors and similarity scores are numeric payloads on which the
  code performs no arithmetic; their components are modelled as `Int`.
* Python truthiness on an optional string (`row.get('x')`) is
  "present and non-empty"; on an optional list it is "present and non-empty".
* A Python exception is modelled by `Option`/`none` on the function that
  raises.
* The SQL query of `ActivityRepository.list` is modelled by filtering an
  in-memory table, sorting by `created_at` descending (`ORDER BY`), and
  taking the limit (`LIMIT`), in that order, exactly as the query is built.
* The BERTopic engine is external to the repository; facade operations take
  its outputs (the per-document assignment function `fit`, the keyword table
  `get_topic`, the topic-info table) as parameters.
-/

/-- `types.py`: `ActivitySummary` — optional attachment to an Activity. -/
structure ActivitySummary where
  short_summary : String
  full_summary : String
deriving DecidableEq, Repr

/-- `types.py`: `Activity` — an immutable ingested record. -/
structure Activity where
  uid : String
  source_uid : String
  source_type : String
  title : String
  body : String
  url : String
  image_url : String
  created_at : Nat
  raw_json : String
deriving DecidableEq, Repr

/-- `types.py`: `DecoratedActivity` — an Activity joined with its optional
summary, optional embedding and a similarity score (default 0.0). -/
structure DecoratedActivity where
  activity : Activity
  summary : Option ActivitySummary
  embedding : Option (List Int)
  similarity : Int := 0
deriving DecidableEq, Repr

/-- One row of the `activities` table, with exactly the columns selected by
`ActivityRepository.list`.  `short_summary`, `full_summary` and `embedding`
are nullable. -/
structure Row where
  id : String
  uid : String
  source_uid : String
  source_type : String
  title : String
  body : String
  url : String
  image_url : String
  created_at : Nat
  short_summary : Option String
  full_summary : Option String
  raw_json : String
  embedding : Option (List Int)
deriving DecidableEq, Repr

/-- Python truthiness of `row.get(column)` for a nullable text column:
true iff the value is present and non-empty. -/
def truthy_str : Option String → Bool
  | some s => s ≠ ""
  | none => false

/-- Python truthiness of the fetched `embedding` value: true iff the value is
present (non-null) and a non-empty vector. -/
def truthy_vec : Option (List Int) → Bool
  | some v => v ≠ []
  | none => false

/-- `repository.py` `_deserialize_activity`: builds the `Activity` from the
row (note `uid=row['id']` in the source). -/
def deserialize_activity (row : Row) : Activity :=
  { uid := row.id
    source_uid := row.source_uid
    source_type := row.source_type
    title := row.title
    body := row.body
    url := row.url
    image_url := row.image_url
    created_at := row.created_at
    raw_json := row.raw_json }

/-- `repository.py` `_deserialize_activity_summary`: returns an
`ActivitySummary` iff `row.get('short_summary') and row.get('full_summary')`
is truthy, i.e. both are present and non-empty. -/
def deserialize_activity_summary (row : Row) : Option ActivitySummary :=
  match row.short_summary, row.full_summary with
  | some s, some f =>
    if s ≠ "" ∧ f ≠ "" then some { short_summary := s, full_summary := f }
    else none
  | _, _ => none

/-- `repository.py` `_deserialize_decorated_activity`: the embedding is kept
only when `row.get('embedding')` is truthy (present and non-empty); the
query selects no `similarity` column, so `row.get('similarity', 0.0)` is the
default. -/
def deserialize_decorated_activity (row : Row) : DecoratedActivity :=
  { activity := deserialize_activity row
    summary := deserialize_activity_summary row
    embedding := if truthy_vec row.embedding then row.embedding else none
    similarity := 0 }

/-- The optional filters of `ActivityRepository.list`
(`source_ids`, `from_date`, `limit`). -/
structure ListFilter where
  source_ids : Option (List String)
  from_date : Option Nat
  limit : Option Nat
deriving DecidableEq, Repr

/-- The `WHERE` clause of the query built by `ActivityRepository.list`:
`embedding IS NOT NULL`, then `source_uid = ANY(%s)` if given, then
`created_at >= %s` if given. -/
def row_matches (f : ListFilter) (row : Row) : Bool :=
  row.embedding.isSome
    && (match f.source_ids with
        | some ids => ids.contains row.source_uid
        | none => true)
    && (match f.from_date with
        | some d => decide (d ≤ row.created_at)
        | none => true)

/-- `ORDER BY created_at DESC` as a relation on rows. -/
def created_desc (a b : Row) : Prop := b.created_at ≤ a.created_at

instance : DecidableRel created_desc := fun _ _ => Nat.decLe _ _

instance : IsTotal Row created_desc :=
  ⟨fun a b => (Nat.le_total b.created_at a.created_at).imp id id⟩

instance : IsTrans Row created_desc :=
  ⟨fun _ _ _ h h' => Nat.le_trans h' h⟩

/-- The rows produced by executing the query of `ActivityRepository.list`
against table contents `db`: filter (`WHERE`), order
(`ORDER BY created_at DESC`), then limit (`LIMIT`, applied last iff given). -/
def sql_rows (db : List Row) (f : ListFilter) : List Row :=
  let ordered := List.insertionSort created_desc (db.filter (row_matches f))
  match f.limit with
  | some n => ordered.take n
  | none => ordered

namespace ActivityRepository

/-- `repository.py` `ActivityRepository.list`: executes the query and
deserializes each fetched row in order. -/
def list (db : List Row) (f : ListFilter) : List DecoratedActivity :=
  (sql_rows db f).map deserialize_decorated_activity

end ActivityRepository

/-! ## The Topic Registry facade (`registry.py`) -/

/-- The mutable facade state owned by `Registry`: the retained activities,
their derived documents, and the per-document topic assignment. -/
structure RegistryState where
  activities : List DecoratedActivity
  documents : List String
  topics : List Int
deriving DecidableEq, Repr

/-- The document-derivation step inside `Registry.seed`:
`full_summary` when `activity.summary and activity.summary.full_summary` is
truthy, otherwise `f"{activity.activity.title} {activity.summary.short_summary}"`.
`none` models the `AttributeError` raised in the fallback branch when
`activity.summary` is `None`. -/
def derive_document (a : DecoratedActivity) : Option String :=
  match a.summary with
  | some s =>
    if s.full_summary ≠ "" then some s.full_summary
    else some (a.activity.title ++ " " ++ s.short_summary)
  | none => none

/-- The document loop of `Registry.seed` over the retained activities;
`none` propagates the raise of `derive_document`. -/
def derive_documents : List DecoratedActivity → Option (List String)
  | [] => some []
  | a :: rest =>
    match derive_document a, derive_documents rest with
    | some d, some ds => some (d :: ds)
    | _, _ => none

/-- The filter `Registry.seed` passes to `ActivityRepository.list`:
`limit=100` and nothing else. -/
def seed_filter : ListFilter :=
  { source_ids := none, from_date := none, limit := some 100 }

namespace Registry

/-- `registry.py` `Registry.seed`, shallowly embedded over table contents
`db` and the engine's per-document assignment `fit`
(`topic_model.fit_transform`).  The source assigns
`self.activities = self.repository.list(limit=100)` first; on an empty
retrieval it logs a warning and returns, leaving `documents`/`topics` as
they were; otherwise it rebuilds `documents` and sets `topics` from the
engine.  `none` models a raise (the `AttributeError` of the document loop). -/
def seed (fit : List String → List Int) (db : List Row) (st : RegistryState) :
    Option RegistryState :=
  let activities := ActivityRepository.list db seed_filter
  if activities.isEmpty then
    some { st with activities := activities }
  else
    match derive_documents activities with
    | none => none
    | some documents =>
      some { activities := activities, documents := documents,
             topics := fit documents }

/-- The enumerated loop of `registry.py` `Registry.get_topic_activities`:
index `i` tracks `enumerate(self.topics)`, and `self.activities[i]` is
appended when `assigned_topic == topic_id and i < len(self.activities)`. -/
def topic_activities_loop (acts : List DecoratedActivity) (topic_id : Int) :
    List Int → Nat → List DecoratedActivity
  | [], _ => []
  | assigned :: rest, i =>
    if assigned = topic_id ∧ i < acts.length then
      match acts[i]? with
      | some a => a :: topic_activities_loop acts topic_id rest (i + 1)
      | none => topic_activities_loop acts topic_id rest (i + 1)
    else topic_activities_loop acts topic_id rest (i + 1)

/-- `registry.py` `Registry.get_topic_activities`. -/
def get_topic_activities (st : RegistryState) (topic_id : Int) :
    List DecoratedActivity :=
  topic_activities_loop st.activities topic_id st.topics 0

/-- `registry.py` `Registry.get_topic_keywords`:
`self.topic_model.get_topic(topic_id)[:num_words]`, where `get_topic` is the
engine's keyword table (a parameter of the model). -/
def get_topic_keywords (get_topic : Int → List (String × Int))
    (topic_id : Int) (num_words : Nat) : List (String × Int) :=
  (get_topic topic_id).take num_words

end Registry

/-- The abbreviated per-activity record embedded in a topic summary. -/
structure ActivityBrief where
  uid : String
  title : String
  created_at : Nat
  source_type : String
deriving DecidableEq, Repr

/-- The record returned by `Registry.get_topic_summary`. -/
structure TopicSummary where
  topic_id : Int
  keywords : List (String × Int)
  activity_count : Nat
  activities : List ActivityBrief
deriving DecidableEq, Repr

namespace Registry

/-- `registry.py` `Registry.get_topic_summary`: keywords (default
`num_words=10`), the full matching-activity count, and the abbreviated
records of `activities[:10]`. -/
def get_topic_summary (get_topic : Int → List (String × Int))
    (st : RegistryState) (topic_id : Int) : TopicSummary :=
  let keywords := get_topic_keywords get_topic topic_id 10
  let activities := get_topic_activities st topic_id
  { topic_id := topic_id
    keywords := keywords
    activity_count := activities.length
    activities :=
      (activities.take 10).map fun a =>
        { uid := a.activity.uid
          title := a.activity.title
          created_at := a.activity.created_at
          source_type := a.activity.source_type } }

/-- The row loop of `registry.py` `Registry.get_all_topics_summary` over the
`Topic` column of the engine's topic-info table: skip `-1`, otherwise append
`get_topic_summary(topic_id)`. -/
def all_topics_loop (get_topic : Int → List (String × Int))
    (st : RegistryState) : List Int → List TopicSummary
  | [] => []
  | topic_id :: rest =>
    if topic_id ≠ -1 then
      get_topic_summary get_topic st topic_id ::
        all_topics_loop get_topic st rest
    else all_topics_loop get_topic st rest

/-- `registry.py` `Registry.get_all_topics_summary`: `topic_info` is the
`Topic` column of `self.topic_model.get_topic_info()` in table order
(`none` when the engine returns no table); the loop skips the outlier topic
`-1`.  (`self.topic_model` itself is set in `__init__` and never `None`.) -/
def get_all_topics_summary (get_topic : Int → List (String × Int))
    (topic_info : Option (List Int)) (st : RegistryState) : List TopicSummary :=
  match topic_info with
  | none => []
  | some ids => all_topics_loop get_topic st ids

end Registry

/-! ## Helper lemmas -/

/-- Every row fetched by the query is a table row passing the `WHERE`
clause. -/
theorem mem_sql_rows {db : List Row} {f : ListFilter} {row : Row}
    (h : row ∈ sql_rows db f) : row ∈ db ∧ row_matches f row = true := by
  have h' : row ∈ List.insertionSort created_desc (db.filter (row_matches f)) := by
    unfold sql_rows at h
    cases hl : f.limit with
    | none => simpa [hl] using h
    | some n =>
      rw [hl] at h
      exact List.mem_of_mem_take h
  have hmem : row ∈ db.filter (row_matches f) :=
    (List.perm_insertionSort created_desc _).mem_iff.mp h'
  exact ⟨List.mem_of_mem_filter hmem, List.of_mem_filter hmem⟩

/-- The fetched rows are sorted by `created_at` descending. -/
theorem sql_rows_sorted (db : List Row) (f : ListFilter) :
    (sql_rows db f).Pairwise created_desc := by
  unfold sql_rows
  cases hl : f.limit with
  | none => exact List.sorted_insertionSort created_desc _
  | some n =>
    exact (List.sorted_insertionSort created_desc _).sublist
      (List.take_sublist n _)

/-- `derive_documents` yields one document per activity when it succeeds. -/
theorem derive_documents_length :
    ∀ {acts : List DecoratedActivity} {docs : List String},
      derive_documents acts = some docs → docs.length = acts.length := by
  intro acts
  induction acts with
  | nil => intro docs h; simp [derive_documents] at h; simp [← h]
  | cons a rest ih =>
    intro docs h
    unfold derive_documents at h
    cases hd : derive_document a with
    | none => simp [hd] at h
    | some d =>
      cases hds : derive_documents rest with
      | none => simp [hd, hds] at h
      | some ds =>
        simp [hd, hds] at h
        simp [← h, ih hds]

/-! ## Claim theorems -/

/-- C4: every sequence returned by `ActivityRepository.list` is exactly the
deserialization of the SQL result in SQL result order, and adjacent
activities are non-increasing in creation time (most recent first). -/
theorem list_sorted_created_at_desc (db : List Row) (f : ListFilter) :
    ActivityRepository.list db f =
      (sql_rows db f).map deserialize_decorated_activity ∧
    (ActivityRepository.list db f).Pairwise
      (fun a b => b.activity.created_at ≤ a.activity.created_at) := by
  refine ⟨rfl, ?_⟩
  unfold ActivityRepository.list
  rw [List.pairwise_map]
  exact (sql_rows_sorted db f).imp fun h => h

/-- C7: with a row limit `L`, `ActivityRepository.list` returns at most `L`
activities, and the limited query result is exactly the first `L` elements
of the unlimited (filtered and ordered) query result: the limit is applied
after the embedding, source and date filters and the ordering. -/
theorem list_limit_last (db : List Row) (ids : Option (List String))
    (fd : Option Nat) (L : Nat) :
    (ActivityRepository.list db
        { source_ids := ids, from_date := fd, limit := some L }).length ≤ L ∧
    ActivityRepository.list db
        { source_ids := ids, from_date := fd, limit := some L } =
      (ActivityRepository.list db
        { source_ids := ids, from_date := fd, limit := none }).take L := by
  have hmatch : row_matches { source_ids := ids, from_date := fd, limit := some L } =
      row_matches { source_ids := ids, from_date := fd, limit := none } := rfl
  constructor
  · simp [ActivityRepository.list, sql_rows]
  · simp [ActivityRepository.list, sql_rows, List.map_take, hmatch]

/-! ## Concrete example data -/

/-- A stored row with both summaries populated and a one-component
embedding. -/
def ex_row_summary : Row :=
  { id := "a1", uid := "a1", source_uid := "s1", source_type := "rss"
    title := "Title one", body := "body", url := "u", image_url := "img"
    created_at := 30, short_summary := some "short one"
    full_summary := some "full one", raw_json := "raw"
    embedding := some [1] }

/-- A stored row whose embedding is non-null but an empty vector. -/
def ex_row_empty_embedding : Row :=
  { id := "a2", uid := "a2", source_uid := "s1", source_type := "rss"
    title := "Title two", body := "body", url := "u", image_url := "img"
    created_at := 20, short_summary := some "short two"
    full_summary := some "full two", raw_json := "raw"
    embedding := some [] }

/-- A stored row with no summaries (both null) and a valid embedding. -/
def ex_row_no_summary : Row :=
  { id := "a3", uid := "a3", source_uid := "s1", source_type := "rss"
    title := "Title three", body := "body", url := "u", image_url := "img"
    created_at := 10, short_summary := none
    full_summary := none, raw_json := "raw"
    embedding := some [2] }

/-- The empty filter (`list()` with no arguments). -/
def no_filter : ListFilter :=
  { source_ids := none, from_date := none, limit := none }

/-- A facade state as left by an earlier successful seed. -/
def ex_state : RegistryState :=
  { activities := [deserialize_decorated_activity ex_row_summary]
    documents := ["full one"]
    topics := [0] }

/-- C2 counterexample: a stored row whose embedding is non-null but empty
passes the `WHERE embedding IS NOT NULL` gate, yet the record
`ActivityRepository.list` returns for it carries an absent embedding
(Python truthiness of `row.get('embedding')` on an empty vector). -/
theorem list_embedding_absent_counterexample :
    ∃ d ∈ ActivityRepository.list [ex_row_empty_embedding] no_filter,
      d.embedding = none := by decide

/-- C2 amended: activities with a null stored embedding are never returned,
and as long as no stored row carries a (non-null) empty embedding vector,
every record returned by `ActivityRepository.list` has a present
embedding. -/
theorem list_embedding_present (db : List Row) (f : ListFilter)
    (hdb : ∀ r ∈ db, r.embedding ≠ some ([] : List Int)) :
    ∀ d ∈ ActivityRepository.list db f, d.embedding.isSome = true := by
  intro d hd
  unfold ActivityRepository.list at hd
  obtain ⟨row, hrow, rfl⟩ := List.mem_map.mp hd
  obtain ⟨hmem, hmatch⟩ := mem_sql_rows hrow
  have hsome : row.embedding.isSome = true := by
    unfold row_matches at hmatch
    simp only [Bool.and_eq_true] at hmatch
    exact hmatch.1.1
  obtain ⟨v, hv⟩ := Option.isSome_iff_exists.mp hsome
  have hne : v ≠ [] := by
    intro h
    exact hdb row hmem (by rw [hv, h])
  simp [deserialize_decorated_activity, truthy_vec, hv, hne]

/-- C2 witness: the amended theorem applied to a concrete one-row table and
the concrete record it returns. -/
theorem list_embedding_present_witness :
    (deserialize_decorated_activity ex_row_summary).embedding.isSome = true :=
  list_embedding_present [ex_row_summary] no_filter (by decide)
    (deserialize_decorated_activity ex_row_summary) (by decide)

/-- C6: `_deserialize_activity_summary` produces a summary iff both the
`short_summary` and `full_summary` fields of the row are present and
non-empty, and any produced summary carries exactly those two non-empty
strings — never an empty-string summary. -/
theorem deserialize_activity_summary_iff (row : Row) :
    ((deserialize_activity_summary row).isSome = true ↔
      truthy_str row.short_summary = true ∧
        truthy_str row.full_summary = true) ∧
    ∀ s, deserialize_activity_summary row = some s →
      s.short_summary ≠ "" ∧ s.full_summary ≠ "" ∧
      row.short_summary = some s.short_summary ∧
      row.full_summary = some s.full_summary := by
  unfold deserialize_activity_summary truthy_str
  cases hs : row.short_summary with
  | none => simp
  | some a =>
    cases hf : row.full_summary with
    | none => simp
    | some b =>
      by_cases ha : a = ""
      · simp [ha]
      · by_cases hb : b = ""
        · simp [ha, hb]
        · constructor
          · simp [ha, hb]
          · intro s hsome
            simp [ha, hb] at hsome
            rw [← hsome]
            exact ⟨ha, hb, rfl, rfl⟩

/-- C6 witness: the characterization applied to the concrete row whose two
summary fields are populated. -/
theorem deserialize_activity_summary_iff_witness :
    ("short one" : String) ≠ "" ∧ ("full one" : String) ≠ "" :=
  have h := (deserialize_activity_summary_iff ex_row_summary).2
    { short_summary := "short one", full_summary := "full one" } (by decide)
  ⟨h.1, h.2.1⟩

/-- C1 counterexample: against an empty table, `Registry.seed` does return
without raising, but it is not a no-op on prior facade state — the source
assigns `self.activities = self.repository.list(limit=100)` before the
emptiness check, so a previously non-empty activities list is replaced by
the empty retrieval (documents and topics are left as they were). -/
theorem seed_empty_not_noop_counterexample :
    Registry.seed (fun _ => []) [] ex_state ≠ some ex_state ∧
    Registry.seed (fun _ => []) [] ex_state =
      some { activities := [], documents := ["full one"], topics := [0] } := by
  constructor
  · decide
  · decide

/-- C1 amended: when `Registry.seed` retrieves zero activities it does not
raise and leaves the prior documents list and topic-assignment list exactly
as they were, but the prior activities list is overwritten with the empty
retrieval result. -/
theorem seed_empty_retrieval (fit : List String → List Int) (db : List Row)
    (st : RegistryState)
    (h : ActivityRepository.list db seed_filter = []) :
    Registry.seed fit db st =
      some { activities := [], documents := st.documents,
             topics := st.topics } := by
  unfold Registry.seed
  simp [h]

/-- C1 witness: the amended theorem applied to an empty table and a
previously seeded facade state. -/
theorem seed_empty_retrieval_witness :
    Registry.seed (fun _ => []) [] ex_state =
      some { activities := [], documents := ex_state.documents,
             topics := ex_state.topics } :=
  seed_empty_retrieval (fun _ => []) [] ex_state (by decide)

/-- C3: the document derivation of `Registry.seed` is not total — for an
activity whose summary is absent the fallback branch evaluates
`activity.summary.short_summary` on `None` and raises `AttributeError`
(modelled by `none`), so a non-empty batch containing a summary-less
activity makes the whole `seed` call raise instead of producing a
title-plus-short-summary document. -/
theorem seed_raises_on_absent_summary :
    derive_document (deserialize_decorated_activity ex_row_no_summary) =
      none ∧
    Registry.seed (fun l => l.map fun _ => 0) [ex_row_no_summary] ex_state =
      none := by
  constructor
  · decide
  · decide

/-- The enumerated loop of `get_topic_activities`, started at index `i`,
collects exactly the positional matches of the topic list against the
activities from position `i` on. -/
theorem topic_activities_loop_eq (acts : List DecoratedActivity)
    (topic_id : Int) :
    ∀ (topics : List Int) (i : Nat),
      Registry.topic_activities_loop acts topic_id topics i =
        ((acts.drop i).zip topics).filterMap
          (fun p => if p.2 = topic_id then some p.1 else none) := by
  intro topics
  induction topics with
  | nil => intro i; simp [Registry.topic_activities_loop]
  | cons assigned rest ih =>
    intro i
    unfold Registry.topic_activities_loop
    by_cases hi : i < acts.length
    · rw [List.drop_eq_getElem_cons hi]
      rw [List.getElem?_eq_getElem hi]
      simp only [List.zip_cons_cons, List.filterMap_cons]
      by_cases ht : assigned = topic_id
      · simp only [ht, hi, and_true, if_pos, ih (i + 1)]
      · simp only [ht, false_and, if_neg, if_false, ih (i + 1),
          not_false_iff]
    · have hd : acts.drop i = [] :=
        List.drop_eq_nil_of_le (Nat.le_of_not_lt hi)
      have hd' : acts.drop (i + 1) = [] :=
        List.drop_eq_nil_of_le (Nat.le_succ_of_le (Nat.le_of_not_lt hi))
      have hg : acts[i]? = none := by
        rw [List.getElem?_eq_none_iff]
        exact Nat.le_of_not_lt hi
      simp [hi, hg, ih (i + 1), hd, hd']

/-- C5: `Registry.get_topic_activities topic_id` returns exactly the
positional subsequence of the retained activities whose index carries
`topic_id` in the topic-assignment list, in retained order: it equals the
position-wise zip of activities with assignments filtered to that id. -/
theorem get_topic_activities_positional (st : RegistryState)
    (topic_id : Int) :
    Registry.get_topic_activities st topic_id =
      (st.activities.zip st.topics).filterMap
        (fun p => if p.2 = topic_id then some p.1 else none) := by
  unfold Registry.get_topic_activities
  simpa using topic_activities_loop_eq st.activities topic_id st.topics 0

/-- The loop of `get_all_topics_summary` is the filter-out of the outlier id
followed by one `get_topic_summary` per remaining topic, in table order. -/
theorem all_topics_loop_eq (get_topic : Int → List (String × Int))
    (st : RegistryState) :
    ∀ ids : List Int,
      Registry.all_topics_loop get_topic st ids =
        (ids.filter fun t => decide (t ≠ -1)).map
          (Registry.get_topic_summary get_topic st) := by
  intro ids
  induction ids with
  | nil => simp [Registry.all_topics_loop]
  | cons topic_id rest ih =>
    unfold Registry.all_topics_loop
    by_cases ht : topic_id = (-1 : Int)
    · simp [ht, ih]
    · simp [ht, ih]

/-- C8: `Registry.get_all_topics_summary` returns one topic summary per
non-outlier topic of the engine's topic-info table, in table order, and no
returned summary carries the reserved outlier id `-1`. -/
theorem get_all_topics_summary_no_outlier
    (get_topic : Int → List (String × Int)) (ids : List Int)
    (st : RegistryState) :
    Registry.get_all_topics_summary get_topic (some ids) st =
      (ids.filter fun t => decide (t ≠ -1)).map
        (Registry.get_topic_summary get_topic st) ∧
    (Registry.get_all_topics_summary get_topic (some ids) st).all
      (fun s => decide (s.topic_id ≠ -1)) = true := by
  have h := all_topics_loop_eq get_topic st ids
  refine ⟨h, ?_⟩
  show (Registry.all_topics_loop get_topic st ids).all
      (fun s => decide (s.topic_id ≠ -1)) = true
  rw [h, List.all_eq_true]
  intro s hs
  obtain ⟨t, ht, rfl⟩ := List.mem_map.mp hs
  have hne := List.of_mem_filter ht
  simp only [decide_eq_true_eq] at hne ⊢
  simpa [Registry.get_topic_summary] using hne

/-- C9: the record composed by `Registry.get_topic_summary` caps its
embedded activity list at the first 10 matching activities in retained
order, while `activity_count` is the full matching count. -/
theorem get_topic_summary_cap (get_topic : Int → List (String × Int))
    (st : RegistryState) (topic_id : Int) :
    (Registry.get_topic_summary get_topic st topic_id).activities.length
        ≤ 10 ∧
    (Registry.get_topic_summary get_topic st topic_id).activities =
      ((Registry.get_topic_activities st topic_id).take 10).map
        (fun a =>
          { uid := a.activity.uid, title := a.activity.title
            created_at := a.activity.created_at
            source_type := a.activity.source_type : ActivityBrief }) ∧
    (Registry.get_topic_summary get_topic st topic_id).activity_count =
      (Registry.get_topic_activities st topic_id).length := by
  refine ⟨?_, rfl, rfl⟩
  simp only [Registry.get_topic_summary, List.length_map, List.length_take]
  exact min_le_left _ _

/-- The facade state produced by a successful seed over the one-row table
`[ex_row_summary]` with an engine that assigns every document topic 0. -/
def ex_seeded : RegistryState :=
  { activities := [deserialize_decorated_activity ex_row_summary]
    documents := ["full one"]
    topics := [0] }

/-- C10: a `Registry.seed` call that retrieves a non-empty batch and
completes queries the store with the fixed row cap 100 (the retained
activities are exactly the `limit=100` retrieval, hence at most 100), and —
given the engine contract of one topic assignment per submitted document —
the retained documents list and topic-assignment list each hold exactly one
entry per retained activity. -/
theorem seed_nonempty_invariants (fit : List String → List Int)
    (db : List Row) (st st' : RegistryState)
    (hfit : ∀ docs, (fit docs).length = docs.length)
    (hseed : Registry.seed fit db st = some st')
    (hne : ActivityRepository.list db seed_filter ≠ []) :
    st'.activities = ActivityRepository.list db seed_filter ∧
    st'.activities.length ≤ 100 ∧
    st'.documents.length = st'.activities.length ∧
    st'.topics.length = st'.activities.length := by
  unfold Registry.seed at hseed
  simp only [List.isEmpty_iff] at hseed
  rw [if_neg hne] at hseed
  cases hdocs : derive_documents (ActivityRepository.list db seed_filter) with
  | none => rw [hdocs] at hseed; exact absurd hseed (by simp)
  | some documents =>
    rw [hdocs] at hseed
    simp only [Option.some.injEq] at hseed
    have hlen : (ActivityRepository.list db seed_filter).length ≤ 100 := by
      unfold ActivityRepository.list sql_rows seed_filter
      simp
    rw [← hseed]
    exact ⟨rfl, hlen, derive_documents_length hdocs,
      (hfit documents).trans (derive_documents_length hdocs)⟩

/-- C10 witness: the invariants instantiated on a concrete one-row table,
a concrete constant-topic engine, and the resulting seeded state. -/
theorem seed_nonempty_invariants_witness :
    ex_seeded.activities =
      ActivityRepository.list [ex_row_summary] seed_filter ∧
    ex_seeded.activities.length ≤ 100 ∧
    ex_seeded.documents.length = ex_seeded.activities.length ∧
    ex_seeded.topics.length = ex_seeded.activities.length :=
  seed_nonempty_invariants (fun l => l.map fun _ => 0) [ex_row_summary]
    ex_state ex_seeded (fun docs => List.length_map docs _) (by decide)
    (by decide)
